import Mathlib

/-
Verification development for the OpenSeadragon ImageLoader module
(src/src/imageloader.js): the bounded concurrent job dispatcher
(ImageLoader / addJob / completeJob / clear) and the per-job transport
state machine (ImageJob / start / finish), together with the
multi-server URL selection logic.

The JavaScript is shallowly embedded: the per-job callback wiring
becomes an event-step function on an explicit job-state record, the
dispatcher becomes state-passing functions plus a step relation, and
the URL selection becomes a pure function over strings.
-/

namespace OSDImageLoader

/-! ## Per-job state machine: ImageJob (imageloader.js lines 55-268)

An ImageJob, once started, has these mutable pieces of state that the
asynchronous callbacks read and write:
- image object: non-null until a failing finish nulls it; its
  onload/onerror/onabort handlers are registered by start and set to
  null by finish;
- the timeout timer armed by start (jobId) and cleared by finish;
- errorMsg, null by default (prototype field, line 71);
- for the SignalR branch, whether the connect attempt is pending and
  whether the getTile promise is outstanding;
- for the AJAX branch, whether the XHR is outstanding;
- whether a source URL has ever been assigned to the image object
  (srcSet): the native load/error/abort events can only fire once some
  assignment to image.src has happened.

callbackLog records, in order, each invocation of the job callback
(line 265 this.callback(this)); each entry is the pair
(image non-null?, errorMsg) that the dispatcher-level completion
callback reads from the job (line 377). -/

inductive Transport
  | direct
  | ajax
  | signalR (connected : Bool)
  | multiServer
deriving DecidableEq

structure JobState where
  timeout : Nat
  imageExists : Bool
  handlersActive : Bool
  timerArmed : Bool
  errorMsg : Option String
  sigConnectPending : Bool
  sigRequestOutstanding : Bool
  ajaxOutstanding : Bool
  srcSet : Bool
  callbackLog : List (Bool × Option String)
deriving DecidableEq

/-- The timeout error message built at line 97:
"Image load exceeded timeout (" + self.timeout + " ms)". -/
def timeoutMsg (t : Nat) : String :=
  "Image load exceeded timeout (" ++ toString t ++ " ms)"

/-- ImageJob.prototype.finish (lines 255-266): null out the image event
handlers, null the image itself when unsuccessful, clear the pending
timer, then invoke this.callback(this).  The appended log entry is the
pair (image non-null?, errorMsg) seen by the callback.

Line 256 dereferences this.image first: when a previous failing finish
has already nulled the image, that line throws a TypeError and nothing
below it - in particular this.callback(this) on line 265 - is reached.
The guard on imageExists models this: a finish call on an image-nulled
state changes nothing. -/
def finish (ok : Bool) (j : JobState) : JobState :=
  if j.imageExists then
    let j1 : JobState := { j with handlersActive := false }
    let j2 : JobState := if ok then j1 else { j1 with imageExists := false }
    let j3 : JobState := { j2 with timerArmed := false }
    { j3 with callbackLog := j3.callbackLog ++ [(j3.imageExists, j3.errorMsg)] }
  else j

/-- ImageJob.prototype.start (lines 77-253): create the image object,
register onload/onerror/onabort, arm the timeout timer, then branch on
the transport.  A connected SignalR job immediately issues the getTile
call; a disconnected one first starts the hub connection (line 146); an
AJAX job issues the XHR; direct and multi-server jobs assign the image
source at once (srcSet) and wait for native image events. -/
def startJob (t : Transport) (tmo : Nat) : JobState :=
  let base : JobState :=
    { timeout := tmo
      imageExists := true
      handlersActive := true
      timerArmed := true
      errorMsg := none
      sigConnectPending := false
      sigRequestOutstanding := false
      ajaxOutstanding := false
      srcSet := false
      callbackLog := [] }
  match t with
  | Transport.signalR true => { base with sigRequestOutstanding := true }
  | Transport.signalR false => { base with sigConnectPending := true }
  | Transport.ajax => { base with ajaxOutstanding := true }
  | Transport.direct => { base with srcSet := true }
  | Transport.multiServer => { base with srcSet := true }

/-- The asynchronous events that can reach a started job: the timeout
timer firing (line 96), the native image load/error events (lines
88-94), the SignalR hub connect promise resolving or failing (lines
146-156), the getTile promise resolving (with or without data, lines
110-141), and the AJAX success/error callbacks (lines 171-204; the
success payload is abstracted to its blob size). -/
inductive JEvent
  | timerFire
  | imageLoad
  | imageError
  | sigConnectDone
  | sigConnectFail
  | sigDone (hasData : Bool)
  | sigFail (err : String)
  | ajaxSuccess (size : Nat)
  | ajaxError
deriving DecidableEq

/-- One asynchronous callback firing against the job state.  Events
whose callback is no longer registered (timer cleared, handlers
nulled, promise already consumed) leave the state unchanged; the
native image events additionally require that some image source was
assigned.  The SignalR promise handlers and the AJAX handlers are
never unregistered by finish, exactly as in the source - but when one
of them runs after a failing finish has nulled the image, its own
finish call throws at line 256 before reaching the callback, so the
event only records its errorMsg assignment and consumes the promise
(the guard inside finish).  A sigDone with data, or an ajaxSuccess
with a non-empty blob, only assigns image.src (when the image still
exists; on a nulled image the assignment itself throws); the
resulting native load event arrives separately as imageLoad.  A
failed hub connect only logs to the console (line 155). -/
def jstep (e : JEvent) (j : JobState) : JobState :=
  match e with
  | JEvent.timerFire =>
      if j.timerArmed then
        finish false { j with errorMsg := some (timeoutMsg j.timeout) }
      else j
  | JEvent.imageLoad =>
      if j.handlersActive && j.srcSet then finish true j else j
  | JEvent.imageError =>
      if j.handlersActive && j.srcSet then
        finish false { j with errorMsg := some "Image load aborted" }
      else j
  | JEvent.sigConnectDone =>
      if j.sigConnectPending then
        { j with sigConnectPending := false, sigRequestOutstanding := true }
      else j
  | JEvent.sigConnectFail =>
      if j.sigConnectPending then { j with sigConnectPending := false } else j
  | JEvent.sigDone hasData =>
      if j.sigRequestOutstanding then
        if hasData then
          { j with sigRequestOutstanding := false,
                   srcSet := if j.imageExists then true else j.srcSet }
        else
          finish false { j with
            errorMsg := some "Image load aborted - Empty image response.",
            sigRequestOutstanding := false }
      else j
  | JEvent.sigFail err =>
      if j.sigRequestOutstanding then
        finish false { j with
          errorMsg := some ("Image load aborted - SignalR error: " ++ err),
          sigRequestOutstanding := false }
      else j
  | JEvent.ajaxSuccess size =>
      if j.ajaxOutstanding then
        if size = 0 then
          finish false { j with
            errorMsg := some "Empty image response.",
            ajaxOutstanding := false }
        else
          { j with ajaxOutstanding := false,
                   srcSet := if j.imageExists then true else j.srcSet }
      else j
  | JEvent.ajaxError =>
      if j.ajaxOutstanding then
        finish false { j with
          errorMsg := some "Image load aborted - XHR error",
          ajaxOutstanding := false }
      else j

def runEvents (evs : List JEvent) (j : JobState) : JobState :=
  evs.foldl (fun s e => jstep e s) j

/-- A callback-log entry is well formed when it carries a non-null
image and null error, or a null image and non-null error. -/
def goodEntry (e : Bool × Option String) : Prop :=
  (e.1 = true ∧ e.2 = none) ∨ (e.1 = false ∧ e.2 ≠ none)

/-- The per-job invariant.  While the image event handlers are still
registered no error has been recorded and the image is intact
(handlersClean); every logged callback invocation is well formed
(logGood); once any callback has fired the handlers and the timer are
permanently disarmed (terminalDisarmed); until the callback has fired
the image is intact and the timeout timer is still armed (pendingLive,
which is why a callback always eventually arrives); the callback fires
at most once (logLen); once the image exists with its source assigned
no transport callback is outstanding any more (srcSettled); at most
one transport has pending work (sigExcl, ajaxExcl); and after a
callback either the image is nulled - so a late finish throws before
the callback - or the source was assigned, in which case no transport
callback remains (terminalSrc). -/
structure JInv (j : JobState) : Prop where
  handlersClean : j.handlersActive = true → j.errorMsg = none ∧ j.imageExists = true
  logGood : ∀ e ∈ j.callbackLog, goodEntry e
  terminalDisarmed : j.callbackLog ≠ [] → j.handlersActive = false ∧ j.timerArmed = false
  pendingLive : j.callbackLog = [] → j.imageExists = true ∧ j.timerArmed = true
  logLen : j.callbackLog.length ≤ 1
  srcSettled : j.imageExists = true → j.srcSet = true →
    j.sigRequestOutstanding = false ∧ j.ajaxOutstanding = false ∧
      j.sigConnectPending = false
  sigExcl : j.sigRequestOutstanding = true →
    j.sigConnectPending = false ∧ j.ajaxOutstanding = false
  ajaxExcl : j.ajaxOutstanding = true →
    j.sigConnectPending = false ∧ j.sigRequestOutstanding = false
  terminalSrc : j.callbackLog ≠ [] → j.imageExists = false ∨ j.srcSet = true

/-! ## Timeout plumbing: addJob's jobOptions and the ImageJob constructor -/

/-- The options object a caller passes to ImageLoader.addJob (lines
296-310).  The spec-level submission request carries a per-submission
timeoutMs, so a timeout field is included here; addJob never reads it. -/
structure AddJobOptions where
  src : String
  timeout : Option Nat
  hasAbort : Bool
deriving DecidableEq

/-- The jobOptions record addJob actually hands to the ImageJob
constructor (lines 316-330).  Only the fields relevant to the claims
are kept.  Line 329 sets timeout to this.timeout: the loader-wide
timeout, regardless of anything in the submission options. -/
structure JobOptions where
  src : String
  timeout : Nat
  hasAbort : Bool
deriving DecidableEq

def mkJobOptions (loaderTimeout : Nat) (o : AddJobOptions) : JobOptions :=
  { src := o.src, timeout := loaderTimeout, hasAbort := o.hasAbort }

/-- The ImageJob constructor (lines 55-68): $.extend overwrites the
DEFAULT_SETTINGS.timeout default exactly when options.timeout is
defined. -/
def imageJobTimeout (optTimeout : Option Nat) (defaultTimeout : Nat) : Nat :=
  optTimeout.getD defaultTimeout

/-! ## Multi-server URL selection (ImageJob.start, lines 217-244)

JavaScript string primitives used there, embedded as structural
recursions over character lists: String.prototype.split with a string
separator (note line 227 splits on the literal two-character string
backslash-dot, not on a dot), String.prototype.indexOf(sub) !== -1,
and parseInt(str, 10) returning NaN (modelled as none) when no leading
digits are found. -/

def splitOnAuxL (fuel : Nat) (sep : List Char) (cs : List Char) (acc : List Char) :
    List (List Char) :=
  match fuel with
  | 0 => [acc.reverse ++ cs]
  | fuel2 + 1 =>
    match cs with
    | [] => [acc.reverse]
    | c :: rest =>
      if sep.isPrefixOf (c :: rest) then
        acc.reverse :: splitOnAuxL fuel2 sep (List.drop sep.length (c :: rest)) []
      else
        splitOnAuxL fuel2 sep rest (c :: acc)

/-- JavaScript s.split(sep) for a non-empty string separator. -/
def jsSplit (s sep : String) : List String :=
  (splitOnAuxL s.toList.length sep.toList s.toList []).map List.asString

/-- JavaScript s.indexOf(sub) !== -1. -/
def jsIncludes (s sub : String) : Bool :=
  (jsSplit s sub).length != 1

def digitsValue (cs : List Char) : Option Nat :=
  let ds := cs.takeWhile Char.isDigit
  if ds.isEmpty then none
  else some (ds.foldl (fun a c => 10 * a + (c.toNat - 48)) 0)

/-- JavaScript parseInt(s, 10): skip leading whitespace, optional
sign, then the leading run of decimal digits; NaN (none) when that run
is empty.  (Exact integers stand in for JS doubles; above 2^53 the
runtime would round while this model does not - no claim input comes
near that range.) -/
def jsParseInt (s : String) : Option Int :=
  match s.toList.dropWhile (fun c => c = ' ' ∨ c = '\t' ∨ c = '\n' ∨ c = '\r') with
  | '-' :: rest => (digitsValue rest).map (fun n => -(n : Int))
  | '+' :: rest => (digitsValue rest).map (fun n => (n : Int))
  | cs => (digitsValue cs).map (fun n => (n : Int))

/-- parseInt applied to a possibly-undefined token: parseInt(undefined)
is NaN. -/
def jsParseIntOpt (o : Option String) : Option Int :=
  o.bind jsParseInt

/-- The test n % 2 === 0 of lines 231/232/238; false when n is NaN. -/
def jsEven (o : Option Int) : Bool :=
  match o with
  | none => false
  | some n => n % 2 == 0

/-- The four configured servers (options.multiServers, indices 0-3). -/
structure MultiServers where
  s0 : String
  s1 : String
  s2 : String
  s3 : String
deriving DecidableEq

/-- Lines 227-229: coords = src.split('/').slice(-1)[0].split('\\.')[0]
.split('_'); col = parseInt(coords[0], 10); row = parseInt(coords[1], 10). -/
def multiCoords (src : String) : Option Int × Option Int :=
  let fname := ((jsSplit src "/").getLast?).getD ""
  let base := ((jsSplit fname "\\.").head?).getD ""
  let coords := jsSplit base "_"
  (jsParseIntOpt (coords.get? 0), jsParseIntOpt (coords.get? 1))

/-- Lines 222-244: the image source chosen by the loadWithMultiServers
branch.  URLs containing "labels_" or "predictions_" anywhere are used
verbatim; otherwise the endpoint is selected by the parity of col and
row and prepended to the original URL. -/
def multiServerSrc (src : String) (servers : MultiServers) : String :=
  if jsIncludes src "labels_" || jsIncludes src "predictions_" then src
  else
    let c := (multiCoords src).1
    let r := (multiCoords src).2
    if jsEven c then
      if jsEven r then servers.s0 ++ src else servers.s1 ++ src
    else
      if jsEven r then servers.s2 ++ src else servers.s3 ++ src

/-- Definition following the words of claim C8 rather than the source:
the reserved prefixes are checked on the filename itself, and the
column and row are parsed from the second-to-last and third-to-last
underscore-delimited tokens of the filename. -/
def specMultiServerSrc (src : String) (servers : MultiServers) : String :=
  let fname := ((jsSplit src "/").getLast?).getD ""
  if "labels_".toList.isPrefixOf fname.toList ||
      "predictions_".toList.isPrefixOf fname.toList then src
  else
    let toks := jsSplit fname "_"
    let c := jsParseIntOpt (toks.get? (toks.length - 2))
    let r := jsParseIntOpt (toks.get? (toks.length - 3))
    if jsEven c then
      if jsEven r then servers.s0 ++ src else servers.s1 ++ src
    else
      if jsEven r then servers.s2 ++ src else servers.s3 ++ src

/-! ## Dispatcher: ImageLoader (lines 279-356) and completeJob (366-378)

The loader state keeps the three source fields jobLimit, timeout and
jobsInProgress, the waiting queue (each queued record remembers
whether an abort hook was supplied), plus history fields used only to
state properties: the ids ever started (in start order), the ids
started by queue promotion, the ids removed by clear, and the ids for
which the caller callback has fired.  Ids are handed out by nextId in
submission order.  Each operation additionally returns the list of
observable actions it performs, in source order. -/

structure QueuedJob where
  id : Nat
  hasAbort : Bool
deriving DecidableEq

inductive Event
  | startEv (id : Nat)
  | callbackEv (id : Nat)
  | abortEv (id : Nat)
deriving DecidableEq

structure LoaderState where
  jobLimit : Nat
  timeout : Nat
  jobsInProgress : Int
  jobQueue : List QueuedJob
  nextId : Nat
  started : List Nat
  promoted : List Nat
  cleared : List Nat
  callbacks : List Nat
deriving DecidableEq

/-- The ImageLoader constructor (lines 279-288): empty queue, zero jobs
in progress. -/
def initLoader (limit tmo : Nat) : LoaderState :=
  { jobLimit := limit
    timeout := tmo
    jobsInProgress := 0
    jobQueue := []
    nextId := 0
    started := []
    promoted := []
    cleared := []
    callbacks := [] }

/-- ImageLoader.addJob (lines 311-340): when !jobLimit (the limit is 0,
i.e. unlimited) or jobsInProgress < jobLimit, start the new job and
increment jobsInProgress; otherwise push it onto the end of jobQueue.
Nothing is returned to the caller. -/
def addJob (hasAbort : Bool) (s : LoaderState) : LoaderState × List Event :=
  if s.jobLimit = 0 ∨ s.jobsInProgress < (s.jobLimit : Int) then
    ({ s with
        jobsInProgress := s.jobsInProgress + 1
        started := s.started ++ [s.nextId]
        nextId := s.nextId + 1 }, [Event.startEv s.nextId])
  else
    ({ s with
        jobQueue := s.jobQueue ++ [{ id := s.nextId, hasAbort := hasAbort }]
        nextId := s.nextId + 1 }, [])

/-- completeJob (lines 366-378): decrement jobsInProgress; then, when
(!jobLimit || jobsInProgress < jobLimit) and the queue is non-empty,
shift the head of the queue, start it and re-increment jobsInProgress;
finally invoke the caller's callback for the completed job. -/
def completeJob (s : LoaderState) (j : Nat) : LoaderState × List Event :=
  let s1 : LoaderState := { s with jobsInProgress := s.jobsInProgress - 1 }
  let p : LoaderState × List Event :=
    if s1.jobLimit = 0 ∨ s1.jobsInProgress < (s1.jobLimit : Int) then
      match s1.jobQueue with
      | [] => (s1, [])
      | next :: rest =>
        ({ s1 with
            jobQueue := rest
            jobsInProgress := s1.jobsInProgress + 1
            started := s1.started ++ [next.id]
            promoted := s1.promoted ++ [next.id] }, [Event.startEv next.id])
    else (s1, [])
  ({ p.1 with callbacks := p.1.callbacks ++ [j] }, p.2 ++ [Event.callbackEv j])

/-- ImageLoader.clear (lines 346-355): call the abort hook of each
queued job that has one, in queue order, then empty the queue. -/
def clearQ (s : LoaderState) : LoaderState × List Event :=
  ({ s with
      jobQueue := []
      cleared := s.cleared ++ s.jobQueue.map QueuedJob.id },
   (s.jobQueue.filter (fun q => q.hasAbort)).map (fun q => Event.abortEv q.id))

/-- One dispatcher-level step: a new submission, a completion signal
for some job that has been started (the completion wiring of line 313
exists only for jobs that were started), or a clear.  Completion
signals are modelled permissively - the relation allows one for any
started job, even repeatedly - so the invariants proved over it hold
under any completion discipline; the per-job machine in fact delivers
at most one completion per job (see claim C2). -/
inductive DStep : LoaderState → LoaderState → Prop
  | submit (s : LoaderState) (a : Bool) : DStep s (addJob a s).1
  | complete (s : LoaderState) (j : Nat) (h : j ∈ s.started) :
      DStep s (completeJob s j).1
  | clearStep (s : LoaderState) : DStep s (clearQ s).1

def Reachable (limit tmo : Nat) (s : LoaderState) : Prop :=
  Relation.ReflTransGen DStep (initLoader limit tmo) s

/-- The dispatcher invariant: the bound on jobsInProgress, the queue
and the promotion history sorted by submission id, freshness of
nextId, callbacks only for started jobs, and disjointness of the
cleared ids from the started ids and the queue. -/
structure Inv (s : LoaderState) : Prop where
  limitBound : 0 < s.jobLimit → s.jobsInProgress ≤ (s.jobLimit : Int)
  queueSorted : s.jobQueue.Pairwise (fun a b => a.id < b.id)
  promotedSorted : s.promoted.Pairwise (fun a b => a < b)
  promotedQueue : ∀ p ∈ s.promoted, ∀ q ∈ s.jobQueue, p < q.id
  queueLt : ∀ q ∈ s.jobQueue, q.id < s.nextId
  promotedLt : ∀ p ∈ s.promoted, p < s.nextId
  startedLt : ∀ x ∈ s.started, x < s.nextId
  clearedLt : ∀ x ∈ s.cleared, x < s.nextId
  callbacksStarted : ∀ c ∈ s.callbacks, c ∈ s.started
  clearedNotStarted : ∀ x ∈ s.cleared, x ∉ s.started
  queueNotStarted : ∀ q ∈ s.jobQueue, q.id ∉ s.started
  queueNotCleared : ∀ q ∈ s.jobQueue, q.id ∉ s.cleared

/-- A loader at limit 1 after two submissions: job 0 running, job 1
queued. -/
def demoLoader2 : LoaderState := (addJob false (addJob false (initLoader 1 7)).1).1

/-- A loader at limit 1 after submit, submit, clear: job 0 running,
job 1 cleared from the queue. -/
def demoCleared : LoaderState := (clearQ (addJob true (addJob false (initLoader 1 9)).1).1).1

/-! ## Per-job lemmas -/

lemma jinv_start (t : Transport) (tmo : Nat) : JInv (startJob t tmo) := by
  rcases t with _ | _ | c | _
  · refine ⟨?_, ?_, ?_, ?_, ?_, ?_, ?_, ?_, ?_⟩ <;> simp [startJob]
  · refine ⟨?_, ?_, ?_, ?_, ?_, ?_, ?_, ?_, ?_⟩ <;> simp [startJob]
  · rcases c with _ | _ <;>
      (refine ⟨?_, ?_, ?_, ?_, ?_, ?_, ?_, ?_, ?_⟩ <;> simp [startJob])
  · refine ⟨?_, ?_, ?_, ?_, ?_, ?_, ?_, ?_, ?_⟩ <;> simp [startJob]

lemma jinv_fresh_fail (j : JobState) (m : String) (b1 b2 : Bool)
    (_h : JInv j) (himg : j.imageExists = true) (hlog : j.callbackLog = [])
    (hb1 : b1 = true → j.sigConnectPending = false ∧ b2 = false)
    (hb2 : b2 = true → j.sigConnectPending = false ∧ b1 = false) :
    JInv (finish false
      { j with
        errorMsg := some m
        sigRequestOutstanding := b1
        ajaxOutstanding := b2 }) := by
  have heq : finish false
      { j with
        errorMsg := some m
        sigRequestOutstanding := b1
        ajaxOutstanding := b2 } =
      { j with
        handlersActive := false
        imageExists := false
        timerArmed := false
        errorMsg := some m
        sigRequestOutstanding := b1
        ajaxOutstanding := b2
        callbackLog := j.callbackLog ++ [(false, some m)] } := by
    simp [finish, himg]
  rw [heq, hlog]
  refine ⟨?_, ?_, ?_, ?_, ?_, ?_, ?_, ?_, ?_⟩ <;> dsimp only
  · simp
  · simp [goodEntry]
  · simp
  · simp
  · simp
  · simp
  · exact hb1
  · exact hb2
  · simp

lemma jinv_blocked_fail (j : JobState) (m : String) (b1 b2 : Bool)
    (h : JInv j) (himg : j.imageExists = false)
    (hb1 : b1 = true → j.sigConnectPending = false ∧ b2 = false)
    (hb2 : b2 = true → j.sigConnectPending = false ∧ b1 = false) :
    JInv (finish false
      { j with
        errorMsg := some m
        sigRequestOutstanding := b1
        ajaxOutstanding := b2 }) := by
  have heq : finish false
      { j with
        errorMsg := some m
        sigRequestOutstanding := b1
        ajaxOutstanding := b2 } =
      { j with
        errorMsg := some m
        sigRequestOutstanding := b1
        ajaxOutstanding := b2 } := by
    simp [finish, himg]
  rw [heq]
  refine ⟨?_, ?_, ?_, ?_, ?_, ?_, ?_, ?_, ?_⟩ <;> dsimp only
  · intro hh; exact absurd (h.handlersClean hh).2 (by simp [himg])
  · exact h.logGood
  · exact fun hn => h.terminalDisarmed hn
  · intro hl; exact absurd (h.pendingLive hl).1 (by simp [himg])
  · exact h.logLen
  · intro hi; exact absurd hi (by simp [himg])
  · exact hb1
  · exact hb2
  · intro _; exact Or.inl himg

lemma jinv_step (e : JEvent) (j : JobState) (h : JInv j) : JInv (jstep e j) := by
  rcases e with _ | _ | _ | _ | _ | hd | err | size | _
  · -- timerFire
    cases ht : j.timerArmed with
    | false => simpa [jstep, ht] using h
    | true =>
      have hlog : j.callbackLog = [] := by
        by_contra hne
        rw [(h.terminalDisarmed hne).2] at ht
        exact Bool.false_ne_true ht
      have himg : j.imageExists = true := (h.pendingLive hlog).1
      have hres := jinv_fresh_fail j (timeoutMsg j.timeout)
        j.sigRequestOutstanding j.ajaxOutstanding h himg hlog h.sigExcl h.ajaxExcl
      simpa [jstep, ht] using hres
  · -- imageLoad
    cases hg : (j.handlersActive && j.srcSet) with
    | false => simpa [jstep, hg] using h
    | true =>
      obtain ⟨hha, hsrc⟩ : j.handlersActive = true ∧ j.srcSet = true := by
        simpa using hg
      obtain ⟨herr, himg⟩ := h.handlersClean hha
      have hlog : j.callbackLog = [] := by
        by_contra hne
        rw [(h.terminalDisarmed hne).1] at hha
        exact Bool.false_ne_true hha
      have heq : finish true j =
          { j with
            handlersActive := false
            timerArmed := false
            callbackLog := j.callbackLog ++ [(j.imageExists, j.errorMsg)] } := by
        simp [finish, himg]
      have hflags := h.srcSettled himg hsrc
      rw [jstep, hg, if_pos rfl, heq, hlog, himg, herr]
      refine ⟨?_, ?_, ?_, ?_, ?_, ?_, ?_, ?_, ?_⟩ <;> dsimp only
      · simp
      · simp [goodEntry]
      · simp
      · simp
      · simp
      · intro _ _; exact ⟨hflags.1, hflags.2.1, hflags.2.2⟩
      · exact h.sigExcl
      · exact h.ajaxExcl
      · intro _; exact Or.inr hsrc
  · -- imageError
    cases hg : (j.handlersActive && j.srcSet) with
    | false => simpa [jstep, hg] using h
    | true =>
      obtain ⟨hha, hsrc⟩ : j.handlersActive = true ∧ j.srcSet = true := by
        simpa using hg
      obtain ⟨-, himg⟩ := h.handlersClean hha
      have hlog : j.callbackLog = [] := by
        by_contra hne
        rw [(h.terminalDisarmed hne).1] at hha
        exact Bool.false_ne_true hha
      have hres := jinv_fresh_fail j "Image load aborted"
        j.sigRequestOutstanding j.ajaxOutstanding h himg hlog h.sigExcl h.ajaxExcl
      simpa [jstep, hg] using hres
  · -- sigConnectDone
    cases hp : j.sigConnectPending with
    | false => simpa [jstep, hp] using h
    | true =>
      rw [jstep, hp, if_pos rfl]
      refine ⟨?_, ?_, ?_, ?_, ?_, ?_, ?_, ?_, ?_⟩ <;> dsimp only
      · exact h.handlersClean
      · exact h.logGood
      · exact h.terminalDisarmed
      · exact h.pendingLive
      · exact h.logLen
      · intro hi hs; exact absurd (h.srcSettled hi hs).2.2 (by simp [hp])
      · intro _
        refine ⟨rfl, ?_⟩
        cases hax : j.ajaxOutstanding with
        | false => rfl
        | true => exact absurd (h.ajaxExcl hax).1 (by simp [hp])
      · intro hax; exact absurd (h.ajaxExcl hax).1 (by simp [hp])
      · exact h.terminalSrc
  · -- sigConnectFail
    cases hp : j.sigConnectPending with
    | false => simpa [jstep, hp] using h
    | true =>
      rw [jstep, hp, if_pos rfl]
      refine ⟨?_, ?_, ?_, ?_, ?_, ?_, ?_, ?_, ?_⟩ <;> dsimp only
      · exact h.handlersClean
      · exact h.logGood
      · exact h.terminalDisarmed
      · exact h.pendingLive
      · exact h.logLen
      · intro hi hs; exact ⟨(h.srcSettled hi hs).1, (h.srcSettled hi hs).2.1, rfl⟩
      · intro ho; exact ⟨rfl, (h.sigExcl ho).2⟩
      · intro hax; exact ⟨rfl, (h.ajaxExcl hax).2⟩
      · exact h.terminalSrc
  · -- sigDone
    cases ho : j.sigRequestOutstanding with
    | false => simpa [jstep, ho] using h
    | true =>
      cases hd with
      | true =>
        rw [jstep, ho, if_pos rfl, if_pos rfl]
        refine ⟨?_, ?_, ?_, ?_, ?_, ?_, ?_, ?_, ?_⟩ <;> dsimp only
        · exact h.handlersClean
        · exact h.logGood
        · exact h.terminalDisarmed
        · exact h.pendingLive
        · exact h.logLen
        · intro _ _; exact ⟨rfl, (h.sigExcl ho).2, (h.sigExcl ho).1⟩
        · intro hx; exact absurd hx (by simp)
        · intro hax; exact absurd (h.sigExcl ho).2 (by simp [hax])
        · intro hne
          rcases h.terminalSrc hne with hi | hs
          · exact Or.inl hi
          · refine Or.inr ?_
            cases j.imageExists <;> simp [hs]
      | false =>
        cases himg : j.imageExists with
        | true =>
          have hlog : j.callbackLog = [] := by
            by_contra hne
            rcases h.terminalSrc hne with h1 | h1
            · rw [himg] at h1; exact Bool.true_eq_false.mp h1
            · exact absurd (h.srcSettled himg h1).1 (by simp [ho])
          have hres := jinv_fresh_fail j "Image load aborted - Empty image response."
            false j.ajaxOutstanding h himg hlog
            (fun hx => absurd hx (by simp))
            (fun hax => ⟨(h.ajaxExcl hax).1, rfl⟩)
          simpa [jstep, ho] using hres
        | false =>
          have hres := jinv_blocked_fail j "Image load aborted - Empty image response."
            false j.ajaxOutstanding h himg
            (fun hx => absurd hx (by simp))
            (fun hax => ⟨(h.ajaxExcl hax).1, rfl⟩)
          simpa [jstep, ho] using hres
  · -- sigFail
    cases ho : j.sigRequestOutstanding with
    | false => simpa [jstep, ho] using h
    | true =>
      cases himg : j.imageExists with
      | true =>
        have hlog : j.callbackLog = [] := by
          by_contra hne
          rcases h.terminalSrc hne with h1 | h1
          · rw [himg] at h1; exact Bool.true_eq_false.mp h1
          · exact absurd (h.srcSettled himg h1).1 (by simp [ho])
        have hres := jinv_fresh_fail j ("Image load aborted - SignalR error: " ++ err)
          false j.ajaxOutstanding h himg hlog
          (fun hx => absurd hx (by simp))
          (fun hax => ⟨(h.ajaxExcl hax).1, rfl⟩)
        simpa [jstep, ho] using hres
      | false =>
        have hres := jinv_blocked_fail j ("Image load aborted - SignalR error: " ++ err)
          false j.ajaxOutstanding h himg
          (fun hx => absurd hx (by simp))
          (fun hax => ⟨(h.ajaxExcl hax).1, rfl⟩)
        simpa [jstep, ho] using hres
  · -- ajaxSuccess
    cases ho : j.ajaxOutstanding with
    | false => simpa [jstep, ho] using h
    | true =>
      by_cases hs : size = 0
      · cases himg : j.imageExists with
        | true =>
          have hlog : j.callbackLog = [] := by
            by_contra hne
            rcases h.terminalSrc hne with h1 | h1
            · rw [himg] at h1; exact Bool.true_eq_false.mp h1
            · exact absurd (h.srcSettled himg h1).2.1 (by simp [ho])
          have hres := jinv_fresh_fail j "Empty image response."
            j.sigRequestOutstanding false h himg hlog
            (fun hsig => ⟨(h.sigExcl hsig).1, rfl⟩)
            (fun hx => absurd hx (by simp))
          simpa [jstep, ho, hs] using hres
        | false =>
          have hres := jinv_blocked_fail j "Empty image response."
            j.sigRequestOutstanding false h himg
            (fun hsig => ⟨(h.sigExcl hsig).1, rfl⟩)
            (fun hx => absurd hx (by simp))
          simpa [jstep, ho, hs] using hres
      · rw [jstep, ho, if_pos rfl, if_neg hs]
        refine ⟨?_, ?_, ?_, ?_, ?_, ?_, ?_, ?_, ?_⟩ <;> dsimp only
        · exact h.handlersClean
        · exact h.logGood
        · exact h.terminalDisarmed
        · exact h.pendingLive
        · exact h.logLen
        · intro _ _; exact ⟨(h.ajaxExcl ho).2, rfl, (h.ajaxExcl ho).1⟩
        · intro hsig; exact absurd (h.ajaxExcl ho).2 (by simp [hsig])
        · intro hx; exact absurd hx (by simp)
        · intro hne
          rcases h.terminalSrc hne with hi | hs2
          · exact Or.inl hi
          · refine Or.inr ?_
            cases j.imageExists <;> simp [hs2]
  · -- ajaxError
    cases ho : j.ajaxOutstanding with
    | false => simpa [jstep, ho] using h
    | true =>
      cases himg : j.imageExists with
      | true =>
        have hlog : j.callbackLog = [] := by
          by_contra hne
          rcases h.terminalSrc hne with h1 | h1
          · rw [himg] at h1; exact Bool.true_eq_false.mp h1
          · exact absurd (h.srcSettled himg h1).2.1 (by simp [ho])
        have hres := jinv_fresh_fail j "Image load aborted - XHR error"
          j.sigRequestOutstanding false h himg hlog
          (fun hsig => ⟨(h.sigExcl hsig).1, rfl⟩)
          (fun hx => absurd hx (by simp))
        simpa [jstep, ho] using hres
      | false =>
        have hres := jinv_blocked_fail j "Image load aborted - XHR error"
          j.sigRequestOutstanding false h himg
          (fun hsig => ⟨(h.sigExcl hsig).1, rfl⟩)
          (fun hx => absurd hx (by simp))
        simpa [jstep, ho] using hres

lemma jinv_run (evs : List JEvent) (j : JobState) (h : JInv j) :
    JInv (runEvents evs j) := by
  induction evs generalizing j with
  | nil => exact h
  | cons e rest ih => exact ih (jstep e j) (jinv_step e j h)

lemma jstep_terminal_stable (e : JEvent) (j : JobState) (h : JInv j)
    (hn : j.callbackLog ≠ []) : (jstep e j).callbackLog = j.callbackLog := by
  obtain ⟨hha, hta⟩ := h.terminalDisarmed hn
  rcases e with _ | _ | _ | _ | _ | hd | err | size | _
  · simp [jstep, hta]
  · simp [jstep, hha]
  · simp [jstep, hha]
  · cases hp : j.sigConnectPending <;> simp [jstep, hp]
  · cases hp : j.sigConnectPending <;> simp [jstep, hp]
  · -- sigDone
    cases ho : j.sigRequestOutstanding with
    | false => simp [jstep, ho]
    | true =>
      have himg : j.imageExists = false := by
        cases hi : j.imageExists with
        | false => rfl
        | true =>
          rcases h.terminalSrc hn with h1 | h1
          · rw [hi] at h1; exact absurd h1 (by simp)
          · exact absurd (h.srcSettled hi h1).1 (by simp [ho])
      cases hd with
      | true => simp [jstep, ho]
      | false => simp [jstep, ho, finish, himg]
  · -- sigFail
    cases ho : j.sigRequestOutstanding with
    | false => simp [jstep, ho]
    | true =>
      have himg : j.imageExists = false := by
        cases hi : j.imageExists with
        | false => rfl
        | true =>
          rcases h.terminalSrc hn with h1 | h1
          · rw [hi] at h1; exact absurd h1 (by simp)
          · exact absurd (h.srcSettled hi h1).1 (by simp [ho])
      simp [jstep, ho, finish, himg]
  · -- ajaxSuccess
    cases ho : j.ajaxOutstanding with
    | false => simp [jstep, ho]
    | true =>
      have himg : j.imageExists = false := by
        cases hi : j.imageExists with
        | false => rfl
        | true =>
          rcases h.terminalSrc hn with h1 | h1
          · rw [hi] at h1; exact absurd h1 (by simp)
          · exact absurd (h.srcSettled hi h1).2.1 (by simp [ho])
      by_cases hs : size = 0
      · simp [jstep, ho, hs, finish, himg]
      · simp [jstep, ho, hs]
  · -- ajaxError
    cases ho : j.ajaxOutstanding with
    | false => simp [jstep, ho]
    | true =>
      have himg : j.imageExists = false := by
        cases hi : j.imageExists with
        | false => rfl
        | true =>
          rcases h.terminalSrc hn with h1 | h1
          · rw [hi] at h1; exact absurd h1 (by simp)
          · exact absurd (h.srcSettled hi h1).2.1 (by simp [ho])
      simp [jstep, ho, finish, himg]

/-! ## Dispatcher lemmas -/

lemma addJob_pos (s : LoaderState) (a : Bool)
    (hc : s.jobLimit = 0 ∨ s.jobsInProgress < (s.jobLimit : Int)) :
    addJob a s =
      ({ s with
          jobsInProgress := s.jobsInProgress + 1
          started := s.started ++ [s.nextId]
          nextId := s.nextId + 1 }, [Event.startEv s.nextId]) := by
  simp [addJob, hc]

lemma addJob_neg (s : LoaderState) (a : Bool)
    (hc : ¬(s.jobLimit = 0 ∨ s.jobsInProgress < (s.jobLimit : Int))) :
    addJob a s =
      ({ s with
          jobQueue := s.jobQueue ++ [{ id := s.nextId, hasAbort := a }]
          nextId := s.nextId + 1 }, []) := by
  simp [addJob, hc]

lemma completeJob_promote (s : LoaderState) (j : Nat) (next : QueuedJob)
    (rest : List QueuedJob) (hq : s.jobQueue = next :: rest)
    (hc : s.jobLimit = 0 ∨ s.jobsInProgress - 1 < (s.jobLimit : Int)) :
    completeJob s j =
      ({ s with
          jobsInProgress := s.jobsInProgress - 1 + 1
          jobQueue := rest
          started := s.started ++ [next.id]
          promoted := s.promoted ++ [next.id]
          callbacks := s.callbacks ++ [j] },
       [Event.startEv next.id, Event.callbackEv j]) := by
  simp [completeJob, hq, hc]

lemma completeJob_noPromote (s : LoaderState) (j : Nat)
    (hc : s.jobQueue = [] ∨ ¬(s.jobLimit = 0 ∨ s.jobsInProgress - 1 < (s.jobLimit : Int))) :
    completeJob s j =
      ({ s with
          jobsInProgress := s.jobsInProgress - 1
          callbacks := s.callbacks ++ [j] }, [Event.callbackEv j]) := by
  rcases hc with hq | hc
  · by_cases h2 : s.jobLimit = 0 ∨ s.jobsInProgress - 1 < (s.jobLimit : Int) <;>
      simp [completeJob, hq, h2]
  · simp [completeJob, hc]

lemma inv_init (limit tmo : Nat) : Inv (initLoader limit tmo) := by
  refine ⟨?_, ?_, ?_, ?_, ?_, ?_, ?_, ?_, ?_, ?_, ?_, ?_⟩ <;> simp [initLoader]

lemma inv_addJob (s : LoaderState) (a : Bool) (h : Inv s) : Inv (addJob a s).1 := by
  obtain ⟨h1, h2, h3, h4, h5, h6, h7, h8, h9, h10, h11, h12⟩ := h
  by_cases hc : s.jobLimit = 0 ∨ s.jobsInProgress < (s.jobLimit : Int)
  · rw [addJob_pos s a hc]
    refine ⟨?_, h2, h3, h4, ?_, ?_, ?_, ?_, ?_, ?_, ?_, h12⟩ <;> dsimp only
    · intro hl
      rcases hc with hc | hc <;> omega
    · intro q hq; exact Nat.lt_succ_of_lt (h5 q hq)
    · intro p hp; exact Nat.lt_succ_of_lt (h6 p hp)
    · intro x hx
      rcases List.mem_append.mp hx with hx | hx
      · exact Nat.lt_succ_of_lt (h7 x hx)
      · rw [List.mem_singleton] at hx; omega
    · intro x hx; exact Nat.lt_succ_of_lt (h8 x hx)
    · intro c hcm; exact List.mem_append.mpr (Or.inl (h9 c hcm))
    · intro x hx hmem
      rcases List.mem_append.mp hmem with hm | hm
      · exact h10 x hx hm
      · rw [List.mem_singleton] at hm
        have := h8 x hx; omega
    · intro q hq hmem
      rcases List.mem_append.mp hmem with hm | hm
      · exact h11 q hq hm
      · rw [List.mem_singleton] at hm
        have := h5 q hq; omega
  · rw [addJob_neg s a hc]
    refine ⟨h1, ?_, h3, ?_, ?_, ?_, ?_, ?_, h9, h10, ?_, ?_⟩ <;> dsimp only
    · refine List.pairwise_append.mpr ⟨h2, List.pairwise_singleton _ _, ?_⟩
      intro q hq b hb
      rw [List.mem_singleton] at hb; subst hb
      exact h5 q hq
    · intro p hp q hq
      rcases List.mem_append.mp hq with hm | hm
      · exact h4 p hp q hm
      · rw [List.mem_singleton] at hm; subst hm
        exact h6 p hp
    · intro q hq
      rcases List.mem_append.mp hq with hm | hm
      · exact Nat.lt_succ_of_lt (h5 q hm)
      · rw [List.mem_singleton] at hm; subst hm; dsimp only; omega
    · intro p hp; exact Nat.lt_succ_of_lt (h6 p hp)
    · intro x hx; exact Nat.lt_succ_of_lt (h7 x hx)
    · intro x hx; exact Nat.lt_succ_of_lt (h8 x hx)
    · intro q hq
      rcases List.mem_append.mp hq with hm | hm
      · exact h11 q hm
      · rw [List.mem_singleton] at hm; subst hm
        intro hmem; dsimp only at hmem; have := h7 _ hmem; omega
    · intro q hq
      rcases List.mem_append.mp hq with hm | hm
      · exact h12 q hm
      · rw [List.mem_singleton] at hm; subst hm
        intro hmem; dsimp only at hmem; have := h8 _ hmem; omega

lemma inv_completeJob (s : LoaderState) (j : Nat) (hj : j ∈ s.started)
    (h : Inv s) : Inv (completeJob s j).1 := by
  obtain ⟨h1, h2, h3, h4, h5, h6, h7, h8, h9, h10, h11, h12⟩ := h
  by_cases hc : s.jobLimit = 0 ∨ s.jobsInProgress - 1 < (s.jobLimit : Int)
  · cases hq : s.jobQueue with
    | nil =>
      rw [completeJob_noPromote s j (Or.inl hq)]
      refine ⟨?_, h2, h3, h4, h5, h6, h7, h8, ?_, h10, h11, h12⟩ <;> dsimp only
      · intro hl; have := h1 hl; omega
      · intro c hcm
        rcases List.mem_append.mp hcm with hm | hm
        · exact h9 c hm
        · rw [List.mem_singleton] at hm; subst hm; exact hj
    | cons next rest =>
      rw [completeJob_promote s j next rest hq hc]
      have hnextq : next ∈ s.jobQueue := by rw [hq]; exact List.mem_cons_self next rest
      have hrestq : ∀ q ∈ rest, q ∈ s.jobQueue := by
        intro q hqm; rw [hq]; exact List.mem_cons_of_mem next hqm
      have hnextlt : ∀ q ∈ rest, next.id < q.id := by
        have := h2; rw [hq] at this
        exact fun q hqm => (List.pairwise_cons.mp this).1 q hqm
      refine ⟨?_, ?_, ?_, ?_, ?_, ?_, ?_, h8, ?_, ?_, ?_, ?_⟩ <;> dsimp only
      · intro hl
        rcases hc with hc | hc <;> omega
      · have := h2; rw [hq] at this
        exact (List.pairwise_cons.mp this).2
      · refine List.pairwise_append.mpr ⟨h3, List.pairwise_singleton _ _, ?_⟩
        intro p hp b hb
        rw [List.mem_singleton] at hb; subst hb
        exact h4 p hp next hnextq
      · intro p hp q hqm
        rcases List.mem_append.mp hp with hm | hm
        · exact h4 p hm q (hrestq q hqm)
        · rw [List.mem_singleton] at hm; subst hm
          exact hnextlt q hqm
      · intro q hqm; exact h5 q (hrestq q hqm)
      · intro p hp
        rcases List.mem_append.mp hp with hm | hm
        · exact h6 p hm
        · rw [List.mem_singleton] at hm; subst hm
          exact h5 next hnextq
      · intro x hx
        rcases List.mem_append.mp hx with hm | hm
        · exact h7 x hm
        · rw [List.mem_singleton] at hm; subst hm
          exact h5 next hnextq
      · intro c hcm
        rcases List.mem_append.mp hcm with hm | hm
        · exact List.mem_append.mpr (Or.inl (h9 c hm))
        · rw [List.mem_singleton] at hm; subst hm
          exact List.mem_append.mpr (Or.inl hj)
      · intro x hx hmem
        rcases List.mem_append.mp hmem with hm | hm
        · exact h10 x hx hm
        · rw [List.mem_singleton] at hm; subst hm
          exact h12 next hnextq hx
      · intro q hqm hmem
        rcases List.mem_append.mp hmem with hm | hm
        · exact h11 q (hrestq q hqm) hm
        · rw [List.mem_singleton] at hm
          have := hnextlt q hqm; omega
      · intro q hqm; exact h12 q (hrestq q hqm)
  · rw [completeJob_noPromote s j (Or.inr hc)]
    refine ⟨?_, h2, h3, h4, h5, h6, h7, h8, ?_, h10, h11, h12⟩ <;> dsimp only
    · intro hl; have := h1 hl; omega
    · intro c hcm
      rcases List.mem_append.mp hcm with hm | hm
      · exact h9 c hm
      · rw [List.mem_singleton] at hm; subst hm; exact hj

lemma inv_clear (s : LoaderState) (h : Inv s) : Inv (clearQ s).1 := by
  obtain ⟨h1, h2, h3, h4, h5, h6, h7, h8, h9, h10, h11, h12⟩ := h
  refine ⟨h1, List.Pairwise.nil, h3, ?_, ?_, h6, h7, ?_, h9, ?_, ?_, ?_⟩ <;> dsimp only
  · intro p hp q hq; exact absurd hq (List.not_mem_nil q)
  · intro q hq; exact absurd hq (List.not_mem_nil q)
  · intro x hx
    rcases List.mem_append.mp hx with hm | hm
    · exact h8 x hm
    · obtain ⟨q, hq, rfl⟩ := List.mem_map.mp hm
      exact h5 q hq
  · intro x hx
    rcases List.mem_append.mp hx with hm | hm
    · exact h10 x hm
    · obtain ⟨q, hq, rfl⟩ := List.mem_map.mp hm
      exact h11 q hq
  · intro q hq; exact absurd hq (List.not_mem_nil q)
  · intro q hq; exact absurd hq (List.not_mem_nil q)

lemma inv_step (s s2 : LoaderState) (hs : DStep s s2) (h : Inv s) : Inv s2 := by
  cases hs with
  | submit a => exact inv_addJob s a h
  | complete j hj => exact inv_completeJob s j hj h
  | clearStep => exact inv_clear s h

lemma inv_reachable (limit tmo : Nat) (s : LoaderState)
    (h : Reachable limit tmo s) : Inv s := by
  induction h with
  | refl => exact inv_init limit tmo
  | tail _ hbc ih => exact inv_step _ _ hbc ih

lemma dstep_jobLimit (s s2 : LoaderState) (hs : DStep s s2) :
    s2.jobLimit = s.jobLimit := by
  cases hs with
  | submit a =>
    by_cases hc : s.jobLimit = 0 ∨ s.jobsInProgress < (s.jobLimit : Int)
    · rw [addJob_pos s a hc]
    · rw [addJob_neg s a hc]
  | complete j hj =>
    by_cases hc : s.jobLimit = 0 ∨ s.jobsInProgress - 1 < (s.jobLimit : Int)
    · cases hq : s.jobQueue with
      | nil => rw [completeJob_noPromote s j (Or.inl hq)]
      | cons next rest => rw [completeJob_promote s j next rest hq hc]
    · rw [completeJob_noPromote s j (Or.inr hc)]
  | clearStep => rfl

lemma reachable_jobLimit (limit tmo : Nat) (s : LoaderState)
    (h : Reachable limit tmo s) : s.jobLimit = limit := by
  induction h with
  | refl => rfl
  | tail _ hbc ih => rw [dstep_jobLimit _ _ hbc, ih]

/-! ## Claim C1 -/

/-- C1: for every sequence of submissions and completions, when the
concurrency limit is positive the number of jobs currently in progress
never exceeds the limit: addJob only starts a job under the limit, and
the promotion in completeJob happens after the decrement and is itself
guarded by the limit. -/
theorem C1_jobsInProgress_bounded (limit tmo : Nat) (s : LoaderState)
    (h : Reachable limit tmo s) (hl : 0 < limit) :
    s.jobsInProgress ≤ (limit : Int) := by
  have hL := reachable_jobLimit limit tmo s h
  have hb := (inv_reachable limit tmo s h).limitBound
  rw [hL] at hb
  exact hb hl

/-- C1 witness: a trace at limit 1 - submit (starts), submit (queues),
complete (promotes the queued job). -/
theorem C1_witness :
    (completeJob (addJob false (addJob false (initLoader 1 5)).1).1 0).1.jobsInProgress ≤
      ((1 : Nat) : Int) :=
  C1_jobsInProgress_bounded 1 5 _
    (Relation.ReflTransGen.tail
      (Relation.ReflTransGen.tail
        (Relation.ReflTransGen.tail Relation.ReflTransGen.refl
          (DStep.submit (initLoader 1 5) false))
        (DStep.submit (addJob false (initLoader 1 5)).1 false))
      (DStep.complete (addJob false (addJob false (initLoader 1 5)).1).1 0 (by decide)))
    (by decide)

/-! ## Claim C2 -/

/-- C2: for every started job, along any sequence of asynchronous
events, the completion callback fires at most once; each firing
carries either a non-null image handle with null error message or a
null handle with non-null message (never both null, never both
non-null); until the callback has fired the timeout timer stays armed
and firing it produces exactly one callback, so the callback is
invoked exactly once; and once the job is terminal, NO later event -
timer fire, native image event or transport callback - invokes the
callback again (a late transport finish throws at line 256 on the
nulled image before reaching this.callback), hence no double
invocation and no double decrement of the active count. -/
theorem C2_callback_exactly_once (t : Transport) (tmo : Nat)
    (evs : List JEvent) :
    (runEvents evs (startJob t tmo)).callbackLog.length ≤ 1 ∧
    (∀ e ∈ (runEvents evs (startJob t tmo)).callbackLog, goodEntry e) ∧
    ((runEvents evs (startJob t tmo)).callbackLog = [] →
      (runEvents evs (startJob t tmo)).timerArmed = true ∧
      (jstep JEvent.timerFire (runEvents evs (startJob t tmo))).callbackLog.length = 1) ∧
    (∀ e2 : JEvent, (runEvents evs (startJob t tmo)).callbackLog ≠ [] →
      (jstep e2 (runEvents evs (startJob t tmo))).callbackLog =
        (runEvents evs (startJob t tmo)).callbackLog) := by
  have hinv := jinv_run evs (startJob t tmo) (jinv_start t tmo)
  refine ⟨hinv.logLen, hinv.logGood, fun hl => ?_, fun e2 hn =>
    jstep_terminal_stable e2 _ hinv hn⟩
  obtain ⟨himg, hta⟩ := hinv.pendingLive hl
  refine ⟨hta, ?_⟩
  simp [jstep, hta, finish, himg, hl]

/-- C2 witness: a SignalR job finished by its timeout receives no
second callback from the late getTile response (in the source this
late finish throws at line 256 before the callback). -/
theorem C2_witness :
    (jstep (JEvent.sigDone false)
      (runEvents [JEvent.timerFire] (startJob (Transport.signalR true) 100))).callbackLog =
      (runEvents [JEvent.timerFire] (startJob (Transport.signalR true) 100)).callbackLog :=
  (C2_callback_exactly_once (Transport.signalR true) 100 [JEvent.timerFire]).2.2.2
    (JEvent.sigDone false) (by decide)

/-! ## Claim C3 -/

/-- C3: a submission either starts immediately - when the limit is 0
(unlimited) or jobsInProgress is strictly below it - incrementing
jobsInProgress by one and leaving the queue alone, or is appended to
the end of the waiting queue, starting nothing and leaving
jobsInProgress unchanged; nothing is returned synchronously either
way. -/
theorem C3_addJob_dispatch (s : LoaderState) (a : Bool) :
    ((s.jobLimit = 0 ∨ s.jobsInProgress < (s.jobLimit : Int)) →
      (addJob a s).1.jobsInProgress = s.jobsInProgress + 1 ∧
      (addJob a s).1.started = s.started ++ [s.nextId] ∧
      (addJob a s).1.jobQueue = s.jobQueue ∧
      (addJob a s).2 = [Event.startEv s.nextId]) ∧
    (¬(s.jobLimit = 0 ∨ s.jobsInProgress < (s.jobLimit : Int)) →
      (addJob a s).1.jobQueue = s.jobQueue ++ [{ id := s.nextId, hasAbort := a }] ∧
      (addJob a s).1.jobsInProgress = s.jobsInProgress ∧
      (addJob a s).1.started = s.started ∧
      (addJob a s).2 = []) := by
  constructor
  · intro hc; rw [addJob_pos s a hc]; exact ⟨rfl, rfl, rfl, rfl⟩
  · intro hc; rw [addJob_neg s a hc]; exact ⟨rfl, rfl, rfl, rfl⟩

/-- C3 witness: the immediate-start branch on a fresh loader with
limit 1. -/
theorem C3_witness :
    (addJob true (initLoader 1 5)).1.jobsInProgress = (initLoader 1 5).jobsInProgress + 1 ∧
    (addJob true (initLoader 1 5)).1.started =
      (initLoader 1 5).started ++ [(initLoader 1 5).nextId] ∧
    (addJob true (initLoader 1 5)).1.jobQueue = (initLoader 1 5).jobQueue ∧
    (addJob true (initLoader 1 5)).2 = [Event.startEv (initLoader 1 5).nextId] :=
  (C3_addJob_dispatch (initLoader 1 5) true).1 (by decide)

/-! ## Claim C4 -/

/-- C4: on completion the dispatcher decrements jobsInProgress, then -
when the queue is non-empty and capacity allows - pops the HEAD of the
queue and starts it, and only after that fires the finished job's
callback (the event list is start-then-callback); otherwise only the
callback fires after the decrement; and along any reachable trace the
promotion history is sorted by submission id, i.e. jobs queued while
at capacity start in submission order. -/
theorem C4_completion_promotes_in_fifo_order (s : LoaderState) (j : Nat)
    (limit tmo : Nat) (s2 : LoaderState) (h2 : Reachable limit tmo s2) :
    (∀ next rest, s.jobQueue = next :: rest →
      (s.jobLimit = 0 ∨ s.jobsInProgress - 1 < (s.jobLimit : Int)) →
      (completeJob s j).2 = [Event.startEv next.id, Event.callbackEv j] ∧
      (completeJob s j).1.jobQueue = rest ∧
      (completeJob s j).1.jobsInProgress = s.jobsInProgress - 1 + 1 ∧
      (completeJob s j).1.started = s.started ++ [next.id]) ∧
    ((s.jobQueue = [] ∨ ¬(s.jobLimit = 0 ∨ s.jobsInProgress - 1 < (s.jobLimit : Int))) →
      (completeJob s j).2 = [Event.callbackEv j] ∧
      (completeJob s j).1.jobsInProgress = s.jobsInProgress - 1 ∧
      (completeJob s j).1.jobQueue = s.jobQueue) ∧
    s2.promoted.Pairwise (fun a b => a < b) := by
  refine ⟨?_, ?_, (inv_reachable limit tmo s2 h2).promotedSorted⟩
  · intro next rest hq hc
    rw [completeJob_promote s j next rest hq hc]
    exact ⟨rfl, rfl, rfl, rfl⟩
  · intro hc
    rw [completeJob_noPromote s j hc]
    exact ⟨rfl, rfl, rfl⟩

/-- C4 witness: completing job 0 of demoLoader2 starts queued job 1
before firing the callback for job 0. -/
theorem C4_witness :
    (completeJob demoLoader2 0).2 =
      [Event.startEv (QueuedJob.mk 1 false).id, Event.callbackEv 0] ∧
    (completeJob demoLoader2 0).1.jobQueue = [] ∧
    (completeJob demoLoader2 0).1.jobsInProgress = demoLoader2.jobsInProgress - 1 + 1 ∧
    (completeJob demoLoader2 0).1.started =
      demoLoader2.started ++ [(QueuedJob.mk 1 false).id] :=
  (C4_completion_promotes_in_fifo_order demoLoader2 0 1 7 (initLoader 1 7)
    Relation.ReflTransGen.refl).1 (QueuedJob.mk 1 false) [] (by decide) (by decide)

/-! ## Claim C5 -/

/-- C5: clear invokes the abort hook of every job waiting in the queue
(exactly those with a hook, in queue order), empties the queue, leaves
jobsInProgress and the set of started jobs untouched, and a job that
already started still reports through the normal completion path
afterwards. -/
theorem C5_clear_aborts_queue_only (s : LoaderState) (j : Nat) :
    (clearQ s).1.jobQueue = [] ∧
    (clearQ s).1.jobsInProgress = s.jobsInProgress ∧
    (clearQ s).1.started = s.started ∧
    (clearQ s).2 = (s.jobQueue.filter (fun q => q.hasAbort)).map (fun q => Event.abortEv q.id) ∧
    (completeJob (clearQ s).1 j).2 = [Event.callbackEv j] := by
  refine ⟨rfl, rfl, rfl, rfl, ?_⟩
  rw [completeJob_noPromote (clearQ s).1 j (Or.inl rfl)]

/-! ## Claim C6 -/

/-- C6 counterexample: a submission carrying timeoutMs = 100 gets the
loader-wide timeout (line 329; here 30000) rather than 100, and when
the timer fires the error message is
"Image load exceeded timeout (100 ms)", not "timeout". -/
theorem C6_counterexample :
    (mkJobOptions 30000 { src := "t.jpg", timeout := some 100, hasAbort := false }).timeout ≠ 100 ∧
    (jstep JEvent.timerFire (startJob Transport.ajax 100)).callbackLog =
      [(false, some "Image load exceeded timeout (100 ms)")] ∧
    "Image load exceeded timeout (100 ms)" ≠ "timeout" := by
  refine ⟨by decide, by decide, by decide⟩

/-- C6 (amended): addJob gives every job the loader-wide timeout,
ignoring any per-submission timeout; the ImageJob constructor falls
back to the process-wide default only when its timeout option is unset;
and when the timer fires on a started job whose transport never
signalled, the job resolves with a null image and the error message
"Image load exceeded timeout (t ms)", disarming the timer. -/
theorem C6_timeout_behavior (t : Transport) (tmo loaderTmo dflt : Nat)
    (o : AddJobOptions) :
    (mkJobOptions loaderTmo o).timeout = loaderTmo ∧
    imageJobTimeout none dflt = dflt ∧
    (jstep JEvent.timerFire (startJob t tmo)).callbackLog =
      [(false, some (timeoutMsg tmo))] ∧
    (jstep JEvent.timerFire (startJob t tmo)).timerArmed = false := by
  refine ⟨rfl, rfl, ?_, ?_⟩ <;>
    rcases t with _ | _ | c | _ <;>
      first
        | rfl
        | (rcases c with _ | _ <;> rfl)

/-! ## Claim C7 -/

/-- C7 counterexample: on a zero-length AJAX payload the error message
is "Empty image response." (line 193), not "empty response". -/
theorem C7_counterexample :
    (jstep (JEvent.ajaxSuccess 0) (startJob Transport.ajax 100)).callbackLog =
      [(false, some "Empty image response.")] ∧
    "Empty image response." ≠ "empty response" := ⟨rfl, by decide⟩

/-- C7 (amended): every reachable AJAX job whose request is still
outstanding and whose callback has not yet fired resolves, on a
success response wrapping into a zero-length blob, with exactly one
callback carrying a null image handle and the error message "Empty
image response.". -/
theorem C7_empty_ajax_response (t : Transport) (tmo : Nat) (evs : List JEvent)
    (h : (runEvents evs (startJob t tmo)).ajaxOutstanding = true)
    (hpend : (runEvents evs (startJob t tmo)).callbackLog = []) :
    (jstep (JEvent.ajaxSuccess 0) (runEvents evs (startJob t tmo))).callbackLog =
      [(false, some "Empty image response.")] ∧
    (jstep (JEvent.ajaxSuccess 0) (runEvents evs (startJob t tmo))).imageExists = false := by
  have hinv := jinv_run evs (startJob t tmo) (jinv_start t tmo)
  have himg := (hinv.pendingLive hpend).1
  constructor <;> simp [jstep, h, finish, himg, hpend]

/-- C7 witness: the empty-payload behaviour at a freshly started AJAX
job. -/
theorem C7_witness :
    (jstep (JEvent.ajaxSuccess 0) (runEvents [] (startJob Transport.ajax 50))).callbackLog =
      [(false, some "Empty image response.")] ∧
    (jstep (JEvent.ajaxSuccess 0) (runEvents [] (startJob Transport.ajax 50))).imageExists = false :=
  C7_empty_ajax_response Transport.ajax 50 [] rfl rfl

/-! ## Claim C8 -/

/-- C8 counterexample, two concrete divergences from the claim's
description.  First, on http://h/b_3_4_6.jpg the source takes col and
row from the FIRST two underscore tokens ("b" gives NaN, treated as
odd; "3" gives 3, odd; endpoint 3), while the claim's token rule
(second-to-last token "4" even, third-to-last "3" odd) selects
endpoint 1.  Second, on http://h/labels_maps/3_4.jpg the source finds
"labels_" in the URL (a directory, not the filename) and uses the URL
verbatim, while the claim's filename-prefix rule shards it. -/
theorem C8_counterexample :
    multiServerSrc "http://h/b_3_4_6.jpg" ⟨"e0/", "e1/", "e2/", "e3/"⟩ ≠
      specMultiServerSrc "http://h/b_3_4_6.jpg" ⟨"e0/", "e1/", "e2/", "e3/"⟩ ∧
    multiServerSrc "http://h/labels_maps/3_4.jpg" ⟨"e0/", "e1/", "e2/", "e3/"⟩ ≠
      specMultiServerSrc "http://h/labels_maps/3_4.jpg" ⟨"e0/", "e1/", "e2/", "e3/"⟩ := by
  exact ⟨by decide, by decide⟩

/-- C8 (amended): URLs containing "labels_" or "predictions_" anywhere
in the URL (not only as a filename prefix) are requested verbatim;
every other URL is requested from endpoint ++ original URL, the
endpoint selected by the parity of the column and row parsed from the
FIRST and SECOND underscore-delimited tokens of the filename as
(even,even) to 0, (even,odd) to 1, (odd,even) to 2, (odd,odd) to 3,
where - as the jsEven characterisation in the third conjunct states -
a token is even exactly when it parses to an even integer, so a
non-numeric token (NaN) counts as odd; in particular .../5_7.jpg
(column 5 odd, row 7 odd) selects endpoint index 3. -/
theorem C8_shard_selection (src : String) (servers : MultiServers) :
    ((jsIncludes src "labels_" = true ∨ jsIncludes src "predictions_" = true) →
      multiServerSrc src servers = src) ∧
    (jsIncludes src "labels_" = false → jsIncludes src "predictions_" = false →
      multiServerSrc src servers =
        (if jsEven (multiCoords src).1 then
           if jsEven (multiCoords src).2 then servers.s0 else servers.s1
         else
           if jsEven (multiCoords src).2 then servers.s2 else servers.s3) ++ src) ∧
    (∀ o : Option Int, jsEven o = true ↔ ∃ n, o = some n ∧ n % 2 = 0) ∧
    multiServerSrc "http://tiles/5_7.jpg" servers =
      servers.s3 ++ "http://tiles/5_7.jpg" := by
  refine ⟨?_, ?_, ?_, rfl⟩
  · intro hres
    rcases hres with hres | hres <;> simp [multiServerSrc, hres]
  · intro hl hp
    simp only [multiServerSrc, hl, hp, Bool.or_self, Bool.false_eq_true, if_false]
    by_cases h1 : jsEven (multiCoords src).1 = true <;>
      by_cases h2 : jsEven (multiCoords src).2 = true <;>
        simp [h1, h2]
  · intro o
    rcases o with _ | n <;> simp [jsEven]

/-- C8 witness: the amended rule evaluated concretely - a sharded URL
(column 3 odd, row 4 even: endpoint 2) and a verbatim labels URL. -/
theorem C8_witness :
    multiServerSrc "http://h/3_4.jpg" ⟨"e0/", "e1/", "e2/", "e3/"⟩ =
      (if jsEven (multiCoords "http://h/3_4.jpg").1 then
         if jsEven (multiCoords "http://h/3_4.jpg").2 then "e0/" else "e1/"
       else
         if jsEven (multiCoords "http://h/3_4.jpg").2 then "e2/" else "e3/") ++
        "http://h/3_4.jpg" ∧
    multiServerSrc "http://h/labels_maps/3_4.jpg" ⟨"e0/", "e1/", "e2/", "e3/"⟩ =
      "http://h/labels_maps/3_4.jpg" :=
  ⟨(C8_shard_selection "http://h/3_4.jpg" ⟨"e0/", "e1/", "e2/", "e3/"⟩).2.1
      (by decide) (by decide),
   (C8_shard_selection "http://h/labels_maps/3_4.jpg" ⟨"e0/", "e1/", "e2/", "e3/"⟩).1
      (Or.inl (by decide))⟩

/-! ## Claim C9 -/

/-- C9 counterexample: when the hub connection attempt fails, the
source only logs to the console (line 155); the job's completion path
is never entered, so no callback fires and no error message is set. -/
theorem C9_counterexample :
    (jstep JEvent.sigConnectFail (startJob (Transport.signalR false) 100)).callbackLog = [] ∧
    (jstep JEvent.sigConnectFail (startJob (Transport.signalR false) 100)).errorMsg = none :=
  ⟨rfl, rfl⟩

/-- C9 (amended): a SignalR job that observes the channel disconnected
establishes the connection first - the remote getTile call is issued
only once the connect succeeds - but a connect failure is merely
logged: the job's completion callback does not fire and no error
message is recorded; the job only terminates later through its
timeout. -/
theorem C9_connect_then_fetch (tmo : Nat) :
    (startJob (Transport.signalR false) tmo).sigConnectPending = true ∧
    (startJob (Transport.signalR false) tmo).sigRequestOutstanding = false ∧
    (jstep JEvent.sigConnectDone
      (startJob (Transport.signalR false) tmo)).sigRequestOutstanding = true ∧
    (jstep JEvent.sigConnectFail
      (startJob (Transport.signalR false) tmo)).callbackLog = [] ∧
    (jstep JEvent.sigConnectFail
      (startJob (Transport.signalR false) tmo)).errorMsg = none ∧
    (jstep JEvent.timerFire (jstep JEvent.sigConnectFail
      (startJob (Transport.signalR false) tmo))).callbackLog =
      [(false, some (timeoutMsg tmo))] :=
  ⟨rfl, rfl, rfl, rfl, rfl, rfl⟩

/-! ## Claim C10 -/

/-- C10: a job removed from the waiting queue by clear never has its
completion callback invoked - clear emits only abort events, and on
every reachable state the cleared ids are disjoint from the ids with a
recorded callback. -/
theorem C10_cleared_jobs_never_complete (limit tmo : Nat) (s : LoaderState)
    (h : Reachable limit tmo s) :
    (∀ x ∈ s.cleared, x ∉ s.callbacks) ∧
    (∀ s2 : LoaderState, ∀ e ∈ (clearQ s2).2, ∃ i, e = Event.abortEv i) := by
  have inv := inv_reachable limit tmo s h
  refine ⟨fun x hx hmem => inv.clearedNotStarted x hx (inv.callbacksStarted x hmem), ?_⟩
  intro s2 e he
  simp only [clearQ, List.mem_map] at he
  obtain ⟨q, hq, rfl⟩ := he
  exact ⟨q.id, rfl⟩

/-- C10 witness: the cleared job 1 of demoCleared never receives a
callback. -/
theorem C10_witness : 1 ∉ demoCleared.callbacks :=
  (C10_cleared_jobs_never_complete 1 9 demoCleared
    (Relation.ReflTransGen.tail
      (Relation.ReflTransGen.tail
        (Relation.ReflTransGen.tail Relation.ReflTransGen.refl
          (DStep.submit (initLoader 1 9) false))
        (DStep.submit (addJob false (initLoader 1 9)).1 true))
      (DStep.clearStep (addJob true (addJob false (initLoader 1 9)).1).1))).1 1 (by decide)

end OSDImageLoader
